import Mathlib

/-!
# Verification of the `ed-debby` line editor core

A shallow embedding, in Lean 4, of the core of the `ed-debby` editor
(a Rust implementation of an `ed`-style line editor), together with
theorems settling the specification claims about it.

Embedding conventions:
* Rust `usize` is modelled as `Nat`; `usize::saturating_sub` is ordinary
  truncated `Nat` subtraction.
* Rust functions taking `&mut LineBuffer` are modelled by explicit state
  passing: they take a `LineBuffer` and return the updated one.
* `Vec::splice(i..j, repl)` panics when `i > j` or `j > len`; the model
  (`vecSplice`) returns `none` exactly in those cases, and the callers
  surface that as the distinct outcome `EdCommandError.Panic`.
* Interactive line input (`input_mode`) is modelled by an explicit
  `input : List String` parameter holding the lines it would collect.
* File creation/writing in `save` is modelled by an oracle
  `createOk : String → Bool` saying whether writing to a path succeeds.
* Printing to stdout is irrelevant to every claim about buffer state and
  results, so the model drops the `println!` side effects.

Source files embedded: `src/command_structs.rs`, `src/ed_command_parser.rs`,
`src/ed_commands.rs`, `src/modify.rs`, `src/buffer/line_array_buffer.rs`.
-/

namespace EdDebby

/-- The `Address` enum from `command_structs.rs` / `ed_command_parser.rs`:
`Current` ("."), `Absolute(usize)` (1-indexed line number), `Last` ("$"),
and the parser-internal sentinel `None`. -/
inductive Address where
  | Current : Address
  | Absolute : Nat → Address
  | Last : Address
  | None : Address
deriving DecidableEq, Repr

/-- Variant index of an `Address`, as used by Rust's derived `Ord`
(variants compare by declaration order first). -/
def Address.rank : Address → Nat
  | .Current => 0
  | .Absolute _ => 1
  | .Last => 2
  | .None => 3

/-- Rust's derived `>` on `Address`: compare variant order, and compare the
`usize` payloads when both sides are `Absolute`. -/
def Address.gt (a b : Address) : Bool :=
  match a, b with
  | .Absolute m, .Absolute n => m > n
  | _, _ => a.rank > b.rank

/-- The `RangeSep` enum: `Comma` (default) or `Semicolon`. -/
inductive RangeSep where
  | Comma : RangeSep
  | Semicolon : RangeSep
deriving DecidableEq, Repr

/-- `LineBuffer` from `buffer/line_array_buffer.rs`: optional line list
(`lines == none` means "never loaded", distinct from `some []`), optional
remembered filename, and the 1-indexed cursor `current_line`. -/
structure LineBuffer where
  lines : Option (List String)
  filename : Option String
  current_line : Nat
deriving DecidableEq, Repr

/-- `LineBuffer::empty()`. -/
def LineBuffer.empty : LineBuffer :=
  { lines := none, filename := none, current_line := 0 }

/-- Modelled from the spec: `LineBuffer::len` is called throughout
`ed_commands.rs` and `modify.rs` but its definition is not among the files
under `src/`; spec §4.4 defines it as "`length() -> integer`: number of
lines, or `0` if `lines` is absent". -/
def LineBuffer.len (b : LineBuffer) : Nat :=
  match b.lines with
  | some l => l.length
  | none => 0

/-- `EdCommand` from `command_structs.rs`. -/
structure EdCommand where
  address1 : Address
  address2 : Address
  range_sep : RangeSep
  command : Option String
  command_args : Option String
deriving DecidableEq, Repr

/-- `EdCommand::default()`. -/
def EdCommand.default : EdCommand :=
  { address1 := .Current, address2 := .Current, range_sep := .Comma,
    command := none, command_args := none }

/-- Error outcomes of executing a command.  `InvalidRange` and
`EmptyBuffer` are the variants of the Rust `EdCommandError` enum that the
executor produces; `MissingFilename` and `IOError` model the boxed
`std::io::Error` values produced by `LineBuffer::save` (the code reports a
missing filename as an `io::Error` with message "No filename provided");
`Panic` models a Rust panic (an out-of-bounds `Vec::splice`). -/
inductive EdCommandError where
  | InvalidRange : EdCommandError
  | EmptyBuffer : EdCommandError
  | MissingFilename : EdCommandError
  | IOError : EdCommandError
  | Panic : EdCommandError
deriving DecidableEq, Repr

/-- `REPLStatus` from `ed_commands.rs`. -/
inductive REPLStatus where
  | Continue : REPLStatus
  | Quit : REPLStatus
deriving DecidableEq, Repr

/-- `address_to_index` from `ed_commands.rs` (lines 158-172): pick the raw
1-indexed value (`Absolute(addr)` → `addr`, `Last` → `len`, `Current` and
the catch-all `_` → `current_line`), then clamp: values `>= len` become
`len - 1` (saturating) and everything else becomes `index - 1`
(saturating). -/
def address_to_index (address : Address) (buffer : LineBuffer) : Nat :=
  let index :=
    match address with
    | .Absolute addr => addr
    | .Last => buffer.len
    | .Current => buffer.current_line
    | .None => buffer.current_line
  if index ≥ buffer.len then buffer.len - 1 else index - 1

/-- The address-resolution step inside `validate_range`: `Current` becomes
`Absolute(current_line)`, `Last` becomes `Absolute(len)`, everything else
is kept. -/
def resolveAddress (buffer : LineBuffer) (a : Address) : Address :=
  match a with
  | .Current => .Absolute buffer.current_line
  | .Last => .Absolute buffer.len
  | other => other

/-- The `if let Address::Absolute(addr) = a { addr > len }` bound check in
`validate_range`. -/
def absoluteOutOfBounds (a : Address) (buffer : LineBuffer) : Bool :=
  match a with
  | .Absolute addr => addr > buffer.len
  | _ => false

/-- `validate_range` from `ed_commands.rs` (lines 33-70).  The clamp of
`current_line` mutates the buffer, so the model returns the updated buffer
along with the result (`none` = `Ok(())`). -/
def validate_range (buffer : LineBuffer) (command : EdCommand) :
    LineBuffer × Option EdCommandError :=
  let buffer :=
    if buffer.current_line > buffer.len then
      { buffer with current_line := buffer.len }
    else buffer
  let address1 := resolveAddress buffer command.address1
  let address2 := resolveAddress buffer command.address2
  if Address.gt address1 address2 then (buffer, some .InvalidRange)
  else if absoluteOutOfBounds address1 buffer then (buffer, some .InvalidRange)
  else if absoluteOutOfBounds address2 buffer then (buffer, some .InvalidRange)
  else (buffer, none)

/-- `Vec::splice(i..j, repl)` with the removed elements discarded:
replace the half-open range `[i, j)` of `l` with `repl`.  Returns `none`
exactly when Rust would panic (`i > j` or `j > l.length`). -/
def vecSplice (l : List String) (i j : Nat) (repl : List String) :
    Option (List String) :=
  if i ≤ j ∧ j ≤ l.length then some (l.take i ++ repl ++ l.drop j)
  else none

/-- `insert_into_buffer` from `modify.rs` (lines 30-46): splice `lines`
before the resolved index; when `buffer.lines` is `None`, set it to the
input lines.  `current_line` becomes `index + lines.len()` in either case.
Returns `none` when the splice would panic. -/
def insert_into_buffer (buffer : LineBuffer) (location : Address)
    (lines : List String) : Option LineBuffer :=
  let index := address_to_index location buffer
  let newLines :=
    match buffer.lines with
    | none => some lines
    | some buffer_lines =>
      match vecSplice buffer_lines index index lines with
      | none => none
      | some l => some l
  match newLines with
  | none => none
  | some l =>
    some { buffer with lines := some l, current_line := index + lines.length }

/-- `append_into_buffer` from `modify.rs` (lines 88-108): like insert but
at `address_to_index + 1`, except that the literal address `Absolute(0)`
zeroes the index (`index -= index`) so the lines go at the very front. -/
def append_into_buffer (buffer : LineBuffer) (location : Address)
    (lines : List String) : Option LineBuffer :=
  let index := address_to_index location buffer + 1
  let index := if location = Address.Absolute 0 then index - index else index
  let newLines :=
    match buffer.lines with
    | none => some lines
    | some buffer_lines =>
      match vecSplice buffer_lines index index lines with
      | none => none
      | some l => some l
  match newLines with
  | none => none
  | some l =>
    some { buffer with lines := some l, current_line := index + lines.length }

/-- `correct_into_buffer` from `modify.rs` (lines 144-162): splice `lines`
in place of the inclusive index range `[index1, index2]`
(`splice(index1..index2 + 1, lines)`); `current_line` becomes
`index2 + lines.len()`.  Returns `none` when the splice would panic. -/
def correct_into_buffer (buffer : LineBuffer) (location1 location2 : Address)
    (lines : List String) : Option LineBuffer :=
  let index1 := address_to_index location1 buffer
  let index2 := address_to_index location2 buffer
  let newLines :=
    match buffer.lines with
    | none => some lines
    | some buffer_lines =>
      match vecSplice buffer_lines index1 (index2 + 1) lines with
      | none => none
      | some l => some l
  match newLines with
  | none => none
  | some l =>
    some { buffer with lines := some l, current_line := index2 + lines.length }

/-- `delete_from_buffer` from `modify.rs` (lines 180-196): when
`buffer.lines` is `None` return `Err(EmptyBuffer)`; otherwise splice the
inclusive range `[index1, index2]` with an empty replacement and set
`current_line := index1`.  `.error .Panic` models the out-of-bounds
splice panic. -/
def delete_from_buffer (buffer : LineBuffer) (location1 location2 : Address) :
    Except EdCommandError LineBuffer :=
  let index1 := address_to_index location1 buffer
  let index2 := address_to_index location2 buffer
  match buffer.lines with
  | none => .error .EmptyBuffer
  | some buffer_lines =>
    match vecSplice buffer_lines index1 (index2 + 1) [] with
    | none => .error .Panic
    | some l =>
      .ok { buffer with lines := some l, current_line := index1 }

/-- `LineBuffer::save` from `buffer/line_array_buffer.rs` (lines 34-61):
an explicit `filename` argument updates the remembered `self.filename`
*before* `File::create` runs; with no argument the remembered filename is
used, and its absence is the "No filename provided" error.  `createOk`
models whether creating/writing the target path succeeds. -/
def LineBuffer.save (b : LineBuffer) (filename : Option String)
    (createOk : String → Bool) : LineBuffer × Option EdCommandError :=
  match filename with
  | some f =>
    let b := { b with filename := some f }
    if createOk f then (b, none) else (b, some .IOError)
  | none =>
    match b.filename with
    | some f => if createOk f then (b, none) else (b, some .IOError)
    | none => (b, some .MissingFilename)

/-- The body of `print` / `print_with_numbers` from `ed_commands.rs` as it
affects results (both only read the buffer): `EmptyBuffer` when
`len() == 0`, `InvalidRange` when the resolved `low > high`, otherwise
success.  The two verbs differ only in the text printed. -/
def printResult (buffer : LineBuffer) (command : EdCommand) :
    Option EdCommandError :=
  if buffer.len = 0 then some .EmptyBuffer
  else
    let low := address_to_index command.address1 buffer
    let high := address_to_index command.address2 buffer
    if low > high then some .InvalidRange else none

/-- `correct` from `modify.rs` (lines 164-178): a literal
`Absolute(0)` first address is rejected *before* input-mode runs — the
code prints "Invalid address" but returns `Err(EdCommandError::EmptyBuffer)`.
Otherwise the collected `input` lines replace the range. -/
def correct (buffer : LineBuffer) (command : EdCommand)
    (input : List String) : LineBuffer × Except EdCommandError REPLStatus :=
  if command.address1 = Address.Absolute 0 then
    (buffer, .error .EmptyBuffer)
  else
    match correct_into_buffer buffer command.address1 command.address2 input with
    | none => (buffer, .error .Panic)
    | some b => (b, .ok .Continue)

/-- `delete` from `modify.rs` (lines 198-209): a literal `Absolute(0)`
first address is rejected with `InvalidRange`; otherwise
`delete_from_buffer` runs. -/
def delete (buffer : LineBuffer) (command : EdCommand) :
    LineBuffer × Except EdCommandError REPLStatus :=
  if command.address1 = Address.Absolute 0 then
    (buffer, .error .InvalidRange)
  else
    match delete_from_buffer buffer command.address1 command.address2 with
    | .error e => (buffer, .error e)
    | .ok b => (b, .ok .Continue)

/-- `command_runner` from `ed_commands.rs` (lines 85-105): validate the
range (whose cursor clamp persists), then dispatch on the verb string.
The Rust `match command.command.as_deref()` is a sequential
string-equality dispatch, modelled by the `if` chain.  `input` stands for
the lines `input_mode()` would collect for `i`/`a`/`c`; `createOk` is the
file-system oracle for `w`/`wq`. -/
def command_runner (buffer : LineBuffer) (command : EdCommand)
    (input : List String) (createOk : String → Bool) :
    LineBuffer × Except EdCommandError REPLStatus :=
  match validate_range buffer command with
  | (b, some e) => (b, .error e)
  | (b, none) =>
    if command.command = some "q" then (b, .ok .Quit)
    else if command.command = some "w" then
      match b.save command.command_args createOk with
      | (b, none) => (b, .ok .Continue)
      | (b, some e) => (b, .error e)
    else if command.command = some "wq" then
      match b.save command.command_args createOk with
      | (b, none) => (b, .ok .Quit)
      | (b, some e) => (b, .error e)
    else if command.command = some "p" then
      match printResult b command with
      | some e => (b, .error e)
      | none => (b, .ok .Continue)
    else if command.command = some "i" then
      match insert_into_buffer b command.address2 input with
      | none => (b, .error .Panic)
      | some b => (b, .ok .Continue)
    else if command.command = some "=" then
      ({ b with current_line := address_to_index command.address2 b + 1 },
        .ok .Continue)
    else if command.command = some "a" then
      match append_into_buffer b command.address2 input with
      | none => (b, .error .Panic)
      | some b => (b, .ok .Continue)
    else if command.command = some "c" then
      correct b command input
    else if command.command = some "d" then
      delete b command
    else if command.command = some "n" then
      match printResult b command with
      | some e => (b, .error e)
      | none => (b, .ok .Continue)
    else (b, .ok .Continue)

/-- The maximal `usize` value on the 64-bit targets the code is built for. -/
def USIZE_MAX : Nat := 2 ^ 64 - 1

/-- Numeric value of a list of decimal digit characters (the accumulator
loop of Rust's integer `from_str_radix`). -/
def digitsVal (ds : List Char) : Nat :=
  ds.foldl (fun acc c => acc * 10 + (c.toNat - 48)) 0

/-- Strip one leading `'+'` sign (Rust's unsigned `from_str` accepts an
optional plus before the digits). -/
def stripPlus (cs : List Char) : List Char :=
  match cs with
  | c :: rest => if c = '+' then rest else c :: rest
  | [] => []

/-- Rust's `str::parse::<usize>()`: an optional leading `'+'`, then one or
more ASCII decimal digits, with the value required to fit in `usize`
(overflow is a parse error); a leading `'-'` or any other non-digit
character fails. -/
def parseUsize (s : String) : Option Nat :=
  let ds := stripPlus s.data
  if ds ≠ [] ∧ ds.all Char.isDigit = true ∧ digitsVal ds ≤ USIZE_MAX then
    some (digitsVal ds)
  else none

/-- `Address::from_str` from `command_structs.rs` (lines 29-35) and
`ed_command_parser.rs` (lines 35-41): `"."` → `Current`, `"$"` → `Last`,
otherwise `input.parse::<usize>().ok().map(Address::Absolute)`. -/
def Address.from_str (input : String) : Option Address :=
  if input = "." then some .Current
  else if input = "$" then some .Last
  else (parseUsize input).map Address.Absolute

/-- A pest pair produced by parsing the `range` rule: an `address` pair or
a `range_separator` pair, carrying its matched text. -/
inductive RangeTok where
  | address : String → RangeTok
  | range_separator : String → RangeTok
deriving DecidableEq, Repr

/-- Maximal-munch match of the `address` rule `'.' | '$' | digit+` at the
front of a character list: the matched text and the remainder, or `none`
when no address starts here. -/
def matchAddressTok : List Char → Option (String × List Char)
  | '.' :: rest => some (".", rest)
  | '$' :: rest => some ("$", rest)
  | cs =>
    let ds := cs.takeWhile Char.isDigit
    if ds = [] then none
    else some (String.mk ds, cs.dropWhile Char.isDigit)

/-- The optional second address after a separator: at most one more
`address` pair (trailing text is left for verb/argument parsing). -/
def afterSepTokens (cs : List Char) : List RangeTok :=
  match matchAddressTok cs with
  | some (a2, _) => [RangeTok.address a2]
  | none => []

/-- Modelled from the spec: the pest grammar file `ed_command.pest`,
referenced by `#[grammar = "ed_command.pest"]` in `ed_command_parser.rs`,
is not among the files under `src/`.  Spec §6 gives the token grammar:
`range ::= '%' | ';' | [address] [sep [address]]`, with
`address ::= '.' | '$' | digit+` and `sep ::= ',' | ';'`.  Pest tries the
alternatives of an ordered choice left to right, and its inline string
literals produce no inner pairs, so an input starting with `%` or `;`
matches a literal alternative and yields an empty pair stream; otherwise
the optional-address, optional-separator, optional-address shape emits one
pair per matched sub-rule (unconsumed trailing text is not an error for a
bare `Rule::range` parse). -/
def rangeTokens (input : String) : List RangeTok :=
  match input.data with
  | '%' :: _ => []
  | ';' :: _ => []
  | cs =>
    match matchAddressTok cs with
    | some (a1, rest) =>
      match rest with
      | ',' :: rest2 =>
        RangeTok.address a1 :: RangeTok.range_separator "," :: afterSepTokens rest2
      | ';' :: rest2 =>
        RangeTok.address a1 :: RangeTok.range_separator ";" :: afterSepTokens rest2
      | _ => [RangeTok.address a1]
    | none =>
      match cs with
      | ',' :: rest2 => RangeTok.range_separator "," :: afterSepTokens rest2
      | _ => []

/-- The mutable loop state of `parse_range`. -/
structure RangeState where
  address1 : Address
  separator : RangeSep
  address2 : Address
  range_separator_present : Bool

/-- `parse_range` from `ed_command_parser.rs` (lines 127-168), over the
modelled pair stream: the Rust `for` loop over the pairs becomes a fold
(an `address` pair runs `Address::from_str(...).unwrap()`, whose panic on
an unparseable token is the `none` outcome), followed by the defaulting of
`address2` (`Current` when a separator was written, else `address1`). -/
def parse_range (input : String) : Option (Address × RangeSep × Address) :=
  let step (st : RangeState) (tok : RangeTok) : Option RangeState :=
    match tok with
    | .address s =>
      match Address.from_str s with
      | none => none
      | some a =>
        if st.range_separator_present then some { st with address2 := a }
        else some { st with address1 := a }
    | .range_separator s =>
      some { st with
        range_separator_present := true
        separator := if s = ";" then .Semicolon else st.separator }
  match (rangeTokens input).foldlM step
      ⟨Address.Current, RangeSep.Comma, Address.None, false⟩ with
  | none => none
  | some st =>
    let address2 :=
      if st.address2 = Address.None ∧ st.range_separator_present then
        Address.Current
      else if st.address2 = Address.None then st.address1
      else st.address2
    some (st.address1, st.separator, address2)

/-- Sanity anchor: the model reproduces the repository's own `parse_range`
unit tests (`test_parameterized_range_parse`). -/
theorem parse_range_matches_repo_tests :
    parse_range "50,60" = some (.Absolute 50, .Comma, .Absolute 60) ∧
    parse_range "50" = some (.Absolute 50, .Comma, .Absolute 50) ∧
    parse_range "50," = some (.Absolute 50, .Comma, .Current) ∧
    parse_range ",50" = some (.Current, .Comma, .Absolute 50) ∧
    parse_range ".,$" = some (.Current, .Comma, .Last) ∧
    parse_range "10;20" = some (.Absolute 10, .Semicolon, .Absolute 20) ∧
    parse_range "" = some (.Current, .Comma, .Current) := by
  refine ⟨?_, ?_, ?_, ?_, ?_, ?_, ?_⟩ <;> decide

/-- The 1-indexed absolute value an address resolves to inside
`validate_range` (after the cursor clamp): `Current` is the cursor, `Last`
is the buffer length, `Absolute n` is `n`.  (`None` never occurs in a
parsed command; the `0` here is arbitrary.) -/
def resolvedValue (b : LineBuffer) : Address → Nat
  | .Current => b.current_line
  | .Last => b.len
  | .Absolute n => n
  | .None => 0

/-- **C5.** Address-to-index resolution is total and never underflows:
for `1 ≤ n ≤ length`, `Absolute n` resolves to `n - 1`; `Absolute 0`
resolves to `0`; `Absolute n` with `n ≥ length` resolves to `length - 1`
(saturating, so `0` on an empty buffer); `Last` resolves to `length - 1`
(`0` when the buffer is empty, by the same saturating subtraction); and
`Current` resolves exactly as `Absolute current_line` does (the cursor
value run through the same clamp). -/
theorem C5_address_to_index_resolution (b : LineBuffer) (n : Nat) :
    (1 ≤ n → n ≤ b.len → address_to_index (.Absolute n) b = n - 1) ∧
    address_to_index (.Absolute 0) b = 0 ∧
    (b.len ≤ n → address_to_index (.Absolute n) b = b.len - 1) ∧
    address_to_index .Last b = b.len - 1 ∧
    address_to_index .Current b = address_to_index (.Absolute b.current_line) b := by
  refine ⟨?_, ?_, ?_, ?_, ?_⟩ <;>
    simp only [address_to_index] <;> intros <;> split <;> omega

/-- A concrete 3-line buffer used by witnesses. -/
def threeBuf : LineBuffer :=
  { lines := some ["one", "two", "three"], filename := none, current_line := 2 }

/-- Witness for C5 on a concrete 3-line buffer. -/
theorem C5_address_to_index_resolution_witness :
    address_to_index (.Absolute 2) threeBuf = 1 ∧
    address_to_index (.Absolute 0) threeBuf = 0 ∧
    address_to_index (.Absolute 1000) threeBuf = 2 ∧
    address_to_index .Last threeBuf = 2 ∧
    address_to_index .Current threeBuf
      = address_to_index (.Absolute threeBuf.current_line) threeBuf := by
  have h := C5_address_to_index_resolution threeBuf 2
  have h' := C5_address_to_index_resolution threeBuf 1000
  exact ⟨h.1 (by decide) (by decide), h.2.1, h'.2.2.1 (by decide),
    h.2.2.2.1, h.2.2.2.2⟩

/-- **C3.** `validate_range` first clamps `current_line` down to the
buffer length (the clamp persists in the returned buffer, whose lines are
untouched), resolves `Current` to the (clamped) cursor value and `Last`
to the length as absolute numbers, and returns `Ok` exactly when
`resolved(address1) ≤ resolved(address2)` and each resolved absolute
value is `≤ length`; any violation yields `InvalidRange` (the result is
always `Ok` or `InvalidRange`, never another error variant).  Stated for
parsed commands, whose addresses are never the internal `None` sentinel. -/
theorem C3_validate_range_spec (b : LineBuffer) (c : EdCommand)
    (h1 : c.address1 ≠ Address.None) (h2 : c.address2 ≠ Address.None) :
    (validate_range b c).1.lines = b.lines ∧
    (validate_range b c).1.current_line = min b.current_line b.len ∧
    ((validate_range b c).2 = none ↔
      (resolvedValue (validate_range b c).1 c.address1 ≤
          resolvedValue (validate_range b c).1 c.address2 ∧
        resolvedValue (validate_range b c).1 c.address1 ≤ b.len ∧
        resolvedValue (validate_range b c).1 c.address2 ≤ b.len)) ∧
    ((validate_range b c).2 = none ∨
      (validate_range b c).2 = some EdCommandError.InvalidRange) := by
  have hlen : ∀ bb : LineBuffer, bb.lines = b.lines → bb.len = b.len := by
    intro bb hbb
    unfold LineBuffer.len
    rw [hbb]
  by_cases hc : b.current_line > b.len <;>
    cases ha1 : c.address1 <;> cases ha2 : c.address2 <;>
      first
      | exact absurd ha1 h1
      | exact absurd ha2 h2
      | · simp only [validate_range, resolveAddress, absoluteOutOfBounds,
            Address.gt, Address.rank, resolvedValue, hc, if_true, if_false,
            reduceIte]
          split_ifs <;>
            simp_all [LineBuffer.len] <;> omega

/-- The buffer returned by `validate_range` keeps the lines and filename
and has its cursor clamped to `min current_line len`. -/
theorem validate_range_fst (b : LineBuffer) (c : EdCommand) :
    (validate_range b c).1.lines = b.lines ∧
    (validate_range b c).1.filename = b.filename ∧
    (validate_range b c).1.current_line = min b.current_line b.len := by
  refine ⟨?_, ?_, ?_⟩ <;>
    · simp only [validate_range]
      split_ifs <;> dsimp only <;> omega

/-- `LineBuffer::save` never touches the lines or the cursor. -/
theorem save_fst (b : LineBuffer) (f : Option String) (createOk : String → Bool) :
    (b.save f createOk).1.lines = b.lines ∧
    (b.save f createOk).1.current_line = b.current_line := by
  cases f <;> simp only [LineBuffer.save]
  · split <;> first
      | (split_ifs <;> exact ⟨rfl, rfl⟩)
      | exact ⟨rfl, rfl⟩
  · split_ifs <;> exact ⟨rfl, rfl⟩

/-- Equality of executor results is decidable (used to evaluate the model
at concrete inputs). -/
instance {ε α : Type} [DecidableEq ε] [DecidableEq α] :
    DecidableEq (Except ε α) := fun a b =>
  match a, b with
  | .error e1, .error e2 =>
    if h : e1 = e2 then isTrue (by rw [h]) else isFalse (by simp [h])
  | .ok v1, .ok v2 =>
    if h : v1 = v2 then isTrue (by rw [h]) else isFalse (by simp [h])
  | .error _, .ok _ => isFalse (by simp)
  | .ok _, .error _ => isFalse (by simp)

/-- A buffer left with a stale cursor (`current_line > len`), as `a` on a
never-loaded buffer produces (see the C9 theorem): one line, cursor 2. -/
def staleBuf : LineBuffer :=
  { lines := some ["a"], filename := none, current_line := 2 }

/-- `2,2p` — a print command whose range is out of bounds for `staleBuf`. -/
def p2Cmd : EdCommand :=
  { EdCommand.default with
    address1 := .Absolute 2
    address2 := .Absolute 2
    command := some "p" }

/-- **C1 (counterexample).** A command rejected with `InvalidRange` does
*not* always leave `current_line` unchanged: on a 1-line buffer whose
cursor has drifted to 2 (exactly the state `a` leaves behind on a fresh
buffer), the rejected `2,2p` persists `validate_range`'s cursor clamp,
changing `current_line` from 2 to 1. -/
theorem C1_clamp_persists_counterexample :
    (command_runner staleBuf p2Cmd [] (fun _ => true)).2
        = .error .InvalidRange ∧
    (command_runner staleBuf p2Cmd [] (fun _ => true)).1.current_line
        ≠ staleBuf.current_line := by
  constructor <;> decide

/-- **C1 (amended).** For every buffer and every command rejected with
`InvalidRange`, `EmptyBuffer`, or `MissingFilename`, the buffer's lines
are exactly what they were before, and `current_line` becomes
`min current_line len` — i.e. it too is unchanged except for the cursor
clamp at the top of `validate_range`, which persists even when the
command is rejected.  In particular a buffer already satisfying
`current_line ≤ len` is byte-for-byte unchanged. -/
theorem C1_rejection_preserves_buffer (b : LineBuffer) (c : EdCommand)
    (input : List String) (createOk : String → Bool) (e : EdCommandError)
    (hrun : (command_runner b c input createOk).2 = .error e)
    (he : e = .InvalidRange ∨ e = .EmptyBuffer ∨ e = .MissingFilename) :
    (command_runner b c input createOk).1.lines = b.lines ∧
    (command_runner b c input createOk).1.current_line
      = min b.current_line b.len := by
  have hfst := validate_range_fst b c
  rcases hv : validate_range b c with ⟨b1, r⟩
  rw [hv] at hfst
  dsimp only at hfst
  obtain ⟨hb1l, _, hb1c⟩ := hfst
  simp only [command_runner, hv] at hrun ⊢
  cases r with
  | some e' => exact ⟨hb1l, hb1c⟩
  | none =>
    by_cases hq : c.command = some "q"
    · simp [hq] at hrun
    simp only [hq, if_false] at hrun ⊢
    by_cases hw : c.command = some "w"
    · have hsf := save_fst b1 c.command_args createOk
      rcases hs : b1.save c.command_args createOk with ⟨b2, rs⟩
      rw [hs] at hsf
      dsimp only at hsf
      simp only [hw, if_true, hs] at hrun ⊢
      cases rs with
      | none => simp at hrun
      | some es => exact ⟨hsf.1.trans hb1l, hsf.2.trans hb1c⟩
    simp only [hw, if_false] at hrun ⊢
    by_cases hwq : c.command = some "wq"
    · have hsf := save_fst b1 c.command_args createOk
      rcases hs : b1.save c.command_args createOk with ⟨b2, rs⟩
      rw [hs] at hsf
      dsimp only at hsf
      simp only [hwq, if_true, hs] at hrun ⊢
      cases rs with
      | none => simp at hrun
      | some es => exact ⟨hsf.1.trans hb1l, hsf.2.trans hb1c⟩
    simp only [hwq, if_false] at hrun ⊢
    by_cases hp : c.command = some "p"
    · simp only [hp, if_true] at hrun ⊢
      cases hpr : printResult b1 c with
      | none => simp [hpr] at hrun
      | some e' => simp only [hpr]; exact ⟨hb1l, hb1c⟩
    simp only [hp, if_false] at hrun ⊢
    by_cases hi : c.command = some "i"
    · simp only [hi, if_true] at hrun ⊢
      cases hins : insert_into_buffer b1 c.address2 input with
      | none =>
        simp only [hins, Except.error.injEq] at hrun
        rcases he with he | he | he <;> rw [← hrun] at he <;> exact absurd he (by decide)
      | some b2 => simp [hins] at hrun
    simp only [hi, if_false] at hrun ⊢
    by_cases heq : c.command = some "="
    · simp [heq] at hrun
    simp only [heq, if_false] at hrun ⊢
    by_cases ha : c.command = some "a"
    · simp only [ha, if_true] at hrun ⊢
      cases happ : append_into_buffer b1 c.address2 input with
      | none =>
        simp only [happ, Except.error.injEq] at hrun
        rcases he with he | he | he <;> rw [← hrun] at he <;> exact absurd he (by decide)
      | some b2 => simp [happ] at hrun
    simp only [ha, if_false] at hrun ⊢
    by_cases hc : c.command = some "c"
    · simp only [hc, if_true, correct] at hrun ⊢
      by_cases h0 : c.address1 = Address.Absolute 0
      · simp only [h0, if_true, reduceIte]
        exact ⟨hb1l, hb1c⟩
      · simp only [h0, if_false, reduceIte] at hrun ⊢
        cases hcb : correct_into_buffer b1 c.address1 c.address2 input with
        | none =>
          simp only [hcb, Except.error.injEq] at hrun
          rcases he with he | he | he <;> rw [← hrun] at he <;> exact absurd he (by decide)
        | some b2 => simp [hcb] at hrun
    simp only [hc, if_false] at hrun ⊢
    by_cases hd : c.command = some "d"
    · simp only [hd, if_true, delete] at hrun ⊢
      by_cases h0 : c.address1 = Address.Absolute 0
      · simp only [h0, if_true, reduceIte]
        exact ⟨hb1l, hb1c⟩
      · simp only [h0, if_false, reduceIte] at hrun ⊢
        cases hdb : delete_from_buffer b1 c.address1 c.address2 with
        | error e' => simp only [hdb]; exact ⟨hb1l, hb1c⟩
        | ok b2 => simp [hdb] at hrun
    simp only [hd, if_false] at hrun ⊢
    by_cases hn : c.command = some "n"
    · simp only [hn, if_true] at hrun ⊢
      cases hpr : printResult b1 c with
      | none => simp [hpr] at hrun
      | some e' => simp only [hpr]; exact ⟨hb1l, hb1c⟩
    simp only [hn, if_false] at hrun
    simp at hrun

/-- `0d` — delete with the forbidden `Absolute(0)` first address. -/
def dZeroCmd : EdCommand :=
  { EdCommand.default with address1 := .Absolute 0, command := some "d" }

/-- Witness for the amended C1 theorem: `0d` on a well-formed 3-line
buffer is rejected with `InvalidRange` and the buffer is unchanged
(`min 2 3 = 2`). -/
theorem C1_rejection_preserves_buffer_witness :
    (command_runner threeBuf dZeroCmd [] (fun _ => true)).1.lines
        = threeBuf.lines ∧
    (command_runner threeBuf dZeroCmd [] (fun _ => true)).1.current_line
      = min threeBuf.current_line threeBuf.len :=
  C1_rejection_preserves_buffer threeBuf dZeroCmd [] (fun _ => true)
    .InvalidRange (by decide) (Or.inl rfl)

/-- `1,$p` — print the whole buffer. -/
def wholeRangeCmd : EdCommand :=
  { EdCommand.default with
    address1 := .Absolute 1
    address2 := .Last
    command := some "p" }

/-- Witness for C3 at a concrete buffer and command. -/
theorem C3_validate_range_spec_witness :
    (validate_range threeBuf wholeRangeCmd).1.lines = threeBuf.lines ∧
    (validate_range threeBuf wholeRangeCmd).1.current_line
      = min threeBuf.current_line threeBuf.len ∧
    ((validate_range threeBuf wholeRangeCmd).2 = none ↔
      (resolvedValue (validate_range threeBuf wholeRangeCmd).1
          wholeRangeCmd.address1 ≤
        resolvedValue (validate_range threeBuf wholeRangeCmd).1
          wholeRangeCmd.address2 ∧
        resolvedValue (validate_range threeBuf wholeRangeCmd).1
          wholeRangeCmd.address1 ≤ threeBuf.len ∧
        resolvedValue (validate_range threeBuf wholeRangeCmd).1
          wholeRangeCmd.address2 ≤ threeBuf.len)) ∧
    ((validate_range threeBuf wholeRangeCmd).2 = none ∨
      (validate_range threeBuf wholeRangeCmd).2
        = some EdCommandError.InvalidRange) :=
  C3_validate_range_spec threeBuf wholeRangeCmd (by decide) (by decide)

/-- A bare `d` command (both addresses left at the default `Current`). -/
def dCmd : EdCommand := { EdCommand.default with command := some "d" }

/-- A buffer whose `lines` field is present but holds no lines — the state
`delete_from_buffer` itself leaves behind after deleting every line
(`test_delete_all` asserts exactly this state). -/
def clearedBuf : LineBuffer :=
  { lines := some [], filename := none, current_line := 0 }

/-- **C2.** `d` on a buffer whose `lines` field is absent fails with
`EmptyBuffer` and leaves the buffer untouched — but on a buffer whose
lines are present-but-empty it does *not* fail with `EmptyBuffer`:
`delete_from_buffer` only checks for `None` and then runs
`splice(0..1, [])` on the empty vector, whose end point `1` exceeds the
length `0`, which panics in Rust (the `Panic` outcome of the model). -/
theorem C2_delete_on_empty_buffers :
    (command_runner LineBuffer.empty dCmd [] (fun _ => true)).2
        = .error .EmptyBuffer ∧
    (command_runner LineBuffer.empty dCmd [] (fun _ => true)).1
        = LineBuffer.empty ∧
    (command_runner clearedBuf dCmd [] (fun _ => true)).2 = .error .Panic ∧
    (command_runner clearedBuf dCmd [] (fun _ => true)).2
        ≠ .error .EmptyBuffer := by
  refine ⟨?_, ?_, ?_, ?_⟩ <;> decide

/-- `0c` — correct with the forbidden `Absolute(0)` first address. -/
def cZeroCmd : EdCommand :=
  { EdCommand.default with address1 := .Absolute 0, command := some "c" }

/-- A well-formed one-line buffer. -/
def oneBuf : LineBuffer :=
  { lines := some ["one"], filename := none, current_line := 1 }

/-- **C6.** `c` with `address1 = Absolute(0)` is rejected before any input
lines are consumed (the result is the same for no input and for two input
lines) and without mutating the buffer — but the error returned is
`EdCommandError::EmptyBuffer`, not the claimed `InvalidRange`: `correct`
prints `"Invalid address"` yet returns `Err(EmptyBuffer)` (`modify.rs`
line 169), while the parallel zero-address check in `delete` returns
`InvalidRange`. -/
theorem C6_correct_zero_returns_EmptyBuffer :
    command_runner oneBuf cZeroCmd [] (fun _ => true)
        = (oneBuf, .error .EmptyBuffer) ∧
    command_runner oneBuf cZeroCmd ["x", "y"] (fun _ => true)
        = (oneBuf, .error .EmptyBuffer) ∧
    EdCommandError.EmptyBuffer ≠ EdCommandError.InvalidRange := by
  refine ⟨?_, ?_, ?_⟩ <;> decide

/-- **C7.** On a non-empty buffer, `append_into_buffer` with address
`Absolute(0)` splices the collected lines at the very front (index 0):
the new lines come first and every original line follows, and the cursor
lands at the end of the inserted block. -/
theorem C7_append_at_absolute_zero (b : LineBuffer) (bl l : List String)
    (hb : b.lines = some bl) (hbne : bl ≠ []) (hlne : l ≠ []) :
    append_into_buffer b (.Absolute 0) l =
      some { b with lines := some (l ++ bl), current_line := l.length } := by
  have hlen : b.len = bl.length := by simp [LineBuffer.len, hb]
  have h1 : ¬(0 ≥ b.len) := by
    have := List.length_pos.mpr hbne
    omega
  simp [append_into_buffer, address_to_index, vecSplice, hb, h1]

/-- The five-line buffer of the repository's own tests. -/
def fiveBuf : LineBuffer :=
  { lines := some ["one", "two", "three", "four", "five"]
    filename := none
    current_line := 0 }

/-- Witness for C7: appending `["alpha"]` at `Absolute(0)` to the 5-line
buffer makes `"alpha"` the new first line, with the original five after
it. -/
theorem C7_append_at_absolute_zero_witness :
    append_into_buffer fiveBuf (.Absolute 0) ["alpha"] =
      some { lines := some ["alpha", "one", "two", "three", "four", "five"]
             filename := none
             current_line := 1 } :=
  C7_append_at_absolute_zero fiveBuf ["one", "two", "three", "four", "five"]
    ["alpha"] rfl (by decide) (by decide)

/-- The buffer `a` produces from collected lines `l` on a never-loaded
buffer with cursor 0. -/
def unloadedAppendResult (l : List String) : LineBuffer :=
  { lines := some l, filename := none, current_line := l.length + 1 }

/-- **C9.** Appending `k ≥ 1` collected lines to a never-loaded buffer
(`lines` absent, default `Current` address, cursor 0) sets `lines` to
exactly the input lines but `current_line` to `k + 1`, one past the new
length — the invariant `current_line ≤ len` is not preserved by append
itself, and the clamp at the start of the next command's `validate_range`
is what brings the cursor back to `len`. -/
theorem C9_append_unloaded_overshoots_cursor (l : List String)
    (h : 1 ≤ l.length) :
    append_into_buffer LineBuffer.empty .Current l
        = some (unloadedAppendResult l) ∧
    (unloadedAppendResult l).current_line = (unloadedAppendResult l).len + 1 ∧
    ∀ c : EdCommand,
      (validate_range (unloadedAppendResult l) c).1.current_line
        = (unloadedAppendResult l).len := by
  refine ⟨?_, ?_, ?_⟩
  · simp [append_into_buffer, address_to_index, LineBuffer.empty,
      LineBuffer.len, unloadedAppendResult, Nat.add_comm]
  · simp [unloadedAppendResult, LineBuffer.len]
  · intro c
    simp only [validate_range, unloadedAppendResult, LineBuffer.len]
    split_ifs <;> dsimp only <;> omega

/-- Witness for C9 at the one-line input `["a"]`, with the clamp conjunct
instantiated at the default command. -/
theorem C9_append_unloaded_overshoots_cursor_witness :
    append_into_buffer LineBuffer.empty .Current ["a"]
        = some (unloadedAppendResult ["a"]) ∧
    (validate_range (unloadedAppendResult ["a"]) EdCommand.default).1.current_line
        = (unloadedAppendResult ["a"]).len :=
  ⟨(C9_append_unloaded_overshoots_cursor ["a"] (by decide)).1,
   (C9_append_unloaded_overshoots_cursor ["a"] (by decide)).2.2 EdCommand.default⟩

/-- **C10.** `save` with an explicit path updates the remembered filename
*before* attempting to create the file, so a save that fails with an
`IOError` still leaves the filename changed to the new path. -/
theorem C10_save_filename_updated_despite_failure (b : LineBuffer)
    (p : String) (createOk : String → Bool) (h : createOk p = false) :
    (b.save (some p) createOk).1.filename = some p ∧
    (b.save (some p) createOk).2 = some .IOError := by
  simp [LineBuffer.save, h]

/-- Witness for C10: saving to `"new.txt"` on a file system that refuses
every write fails with `IOError` yet records `"new.txt"`. -/
theorem C10_save_filename_updated_despite_failure_witness :
    (LineBuffer.empty.save (some "new.txt") (fun _ => false)).1.filename
        = some "new.txt" ∧
    (LineBuffer.empty.save (some "new.txt") (fun _ => false)).2
        = some .IOError :=
  C10_save_filename_updated_despite_failure LineBuffer.empty "new.txt"
    (fun _ => false) rfl

/-- **C4 (counterexample).** Parsing the range text `"%"` does not yield
`(Absolute 1, Comma, Last)`: the `%` alternative of the grammar produces
no address or separator pairs, so `parse_range`'s post-processing turns
the empty pair stream into the defaults `(Current, Comma, Current)`.
(Under *any* grammar the Rust loop could only build an `Absolute`/`Last`
address from a digit or `$` token of the input text, which `"%"` does not
contain.) -/
theorem C4_percent_counterexample :
    parse_range "%" = some (.Current, .Comma, .Current) ∧
    parse_range "%" ≠ some (.Absolute 1, .Comma, .Last) := by
  constructor <;> decide

/-- **C4 (amended).** Parsing `"%"` and a bare `";"` each yields
`(Current, Comma, Current)` — the shorthand alternatives match but emit
no pairs, so the Rust post-processing falls back to the defaults — and
empty range text yields `(Current, Comma, Current)` as claimed. -/
theorem C4_shorthands_amended :
    parse_range "%" = some (.Current, .Comma, .Current) ∧
    parse_range ";" = some (.Current, .Comma, .Current) ∧
    parse_range "" = some (.Current, .Comma, .Current) := by
  refine ⟨?_, ?_, ?_⟩ <;> decide

/-- A decimal digit character is none of the special characters the
address parser treats separately. -/
theorem isDigit_ne_special (c : Char) (h : c.isDigit = true) :
    c ≠ '+' ∧ c ≠ '.' ∧ c ≠ '$' := by
  refine ⟨?_, ?_, ?_⟩ <;> intro he <;> rw [he] at h <;> exact absurd h (by decide)

/-- **C8 (counterexample).** `"+7"` is not `"."`, not `"$"`, and not a
string consisting of decimal digits, yet `Address::from_str` parses it —
`str::parse::<usize>()` accepts an optional leading `'+'` — so "anything
else is unparseable" fails. -/
theorem C8_plus_sign_counterexample :
    Address.from_str "+7" = some (.Absolute 7) ∧
    Address.from_str "+7" ≠ none := by
  constructor <;> decide

/-- **C8 (amended).** `Address::from_str`: `"."` → `Current`; `"$"` →
`Last`; a non-empty string of decimal digits whose value fits in `usize`
→ `Absolute(value)`; a leading `'+'` followed by such digits is *also*
accepted (Rust's `parse::<usize>()` allows it); a digit string whose
value overflows `usize` is rejected; and every string of no accepted
shape is unparseable. -/
theorem C8_from_str_amended (s : String) :
    Address.from_str "." = some .Current ∧
    Address.from_str "$" = some .Last ∧
    (s.data ≠ [] → s.data.all Char.isDigit = true →
      digitsVal s.data ≤ USIZE_MAX →
      Address.from_str s = some (.Absolute (digitsVal s.data))) ∧
    (∀ r, s.data = '+' :: r → r ≠ [] → r.all Char.isDigit = true →
      digitsVal r ≤ USIZE_MAX →
      Address.from_str s = some (.Absolute (digitsVal r))) ∧
    (s.data.all Char.isDigit = true → USIZE_MAX < digitsVal s.data →
      Address.from_str s = none) ∧
    (s ≠ "." → s ≠ "$" →
      ¬(stripPlus s.data ≠ [] ∧ (stripPlus s.data).all Char.isDigit = true ∧
        digitsVal (stripPlus s.data) ≤ USIZE_MAX) →
      Address.from_str s = none) := by
  refine ⟨by decide, by decide, ?_, ?_, ?_, ?_⟩
  · intro hne hdig hle
    cases hd : s.data with
    | nil => exact absurd hd hne
    | cons c r =>
      have hcd : c.isDigit = true := by
        rw [hd] at hdig
        simp only [List.all_cons, Bool.and_eq_true] at hdig
        exact hdig.1
      obtain ⟨hcp, hcdot, hcdol⟩ := isDigit_ne_special c hcd
      have hs_dot : s ≠ "." := by
        intro he
        have h2 : ('.' : Char) :: ([] : List Char) = c :: r := by
          rw [← hd, he]
        injection h2 with h3 _
        exact hcdot h3.symm
      have hs_dollar : s ≠ "$" := by
        intro he
        have h2 : ('$' : Char) :: ([] : List Char) = c :: r := by
          rw [← hd, he]
        injection h2 with h3 _
        exact hcdol h3.symm
      have hstrip : stripPlus s.data = s.data := by
        rw [hd]
        simp [stripPlus, hcp]
      simp [Address.from_str, hs_dot, hs_dollar, parseUsize, hstrip, hne,
        hdig, hle]
      rw [hd]
  · intro r hd hrne hdig hle
    have hs_dot : s ≠ "." := by
      intro he
      have h2 : ('.' : Char) :: ([] : List Char) = '+' :: r := by
        rw [← hd, he]
      injection h2 with h3 _
      exact absurd h3 (by decide)
    have hs_dollar : s ≠ "$" := by
      intro he
      have h2 : ('$' : Char) :: ([] : List Char) = '+' :: r := by
        rw [← hd, he]
      injection h2 with h3 _
      exact absurd h3 (by decide)
    have hstrip : stripPlus s.data = r := by
      rw [hd]
      simp [stripPlus]
    simp [Address.from_str, hs_dot, hs_dollar, parseUsize, hstrip, hrne,
      hdig, hle]
  · intro hdig hover
    cases hd : s.data with
    | nil =>
      rw [hd] at hover
      simp only [digitsVal, List.foldl_nil] at hover
      exact absurd hover (by decide)
    | cons c r =>
      have hcd : c.isDigit = true := by
        rw [hd] at hdig
        simp only [List.all_cons, Bool.and_eq_true] at hdig
        exact hdig.1
      obtain ⟨hcp, hcdot, hcdol⟩ := isDigit_ne_special c hcd
      have hs_dot : s ≠ "." := by
        intro he
        have h2 : ('.' : Char) :: ([] : List Char) = c :: r := by
          rw [← hd, he]
        injection h2 with h3 _
        exact hcdot h3.symm
      have hs_dollar : s ≠ "$" := by
        intro he
        have h2 : ('$' : Char) :: ([] : List Char) = c :: r := by
          rw [← hd, he]
        injection h2 with h3 _
        exact hcdol h3.symm
      have hstrip : stripPlus s.data = s.data := by
        rw [hd]
        simp [stripPlus, hcp]
      have hnle : ¬(digitsVal s.data ≤ USIZE_MAX) := by omega
      simp [Address.from_str, hs_dot, hs_dollar, parseUsize, hstrip, hnle]
  · intro h1 h2 h3
    simp only [Address.from_str, h1, h2, parseUsize, if_false, ite_false]
    rw [if_neg h3]
    simp

/-- Witness for the amended C8 theorem at `"23"`, `"+7"` and `"x"`. -/
theorem C8_from_str_amended_witness :
    Address.from_str "23" = some (.Absolute (digitsVal "23".data)) ∧
    Address.from_str "+7" = some (.Absolute (digitsVal ['7'])) ∧
    Address.from_str "x" = none :=
  ⟨(C8_from_str_amended "23").2.2.1 (by decide) (by decide) (by decide),
   (C8_from_str_amended "+7").2.2.2.1 ['7'] rfl (by decide) (by decide)
     (by decide),
   (C8_from_str_amended "x").2.2.2.2.2 (by decide) (by decide) (by decide)⟩

end EdDebby
